import Mathlib

/-!
Verification of the request-gating pipeline of the
TradieMate crewai-mcp-neo4j-fastapi service.

The definitions below are a shallow embedding of the Python sources:
  * `security_config.py` — `SecurityConfig.validate_api_key`,
    `APIKeyAuth.__call__`, `RateLimiter.is_allowed`,
    `get_security_headers`, `validate_query_input`;
  * `main.py` — the middleware stack (`add_security_headers`,
    `rate_limit_middleware`, `log_requests`), the pydantic validator
    `QueryRequest.validate_query` and the `/crewai` endpoint
    `query_crew_endpoint`.

Python strings are modelled as `List Char` where character-level
operations (trimming, lowercasing, substring scan) matter, and as
`String` elsewhere.  Timestamps (`datetime.now()`) are modelled as `Int`
(microsecond-resolution clock readings); the rate-limit window length is
an `Int` number of the same units.
-/

namespace Gating

/-! ## Python string primitives used by the sources -/

/-- Python `pat in s` restricted to a prefix test at the head of `s`. -/
def listStartsWith : List Char → List Char → Bool
  | [], _ => true
  | _ :: _, [] => false
  | a :: as, b :: bs => a == b && listStartsWith as bs

/-- Python substring containment `pat in s` on character lists. -/
def hasSub (pat : List Char) : List Char → Bool
  | [] => listStartsWith pat []
  | c :: rest => listStartsWith pat (c :: rest) || hasSub pat rest

/-- Substring containment on `String`, via the character lists. -/
def strHasSub (pat s : String) : Bool :=
  hasSub pat.data s.data

/-- The whitespace characters stripped by Python `str.strip()`
(ASCII fragment, which covers every string in the sources). -/
def pyIsSpace (c : Char) : Bool :=
  c == ' ' || c == '\t' || c == '\n' || c == '\r' || c == '\x0b' || c == '\x0c'

/-- Drop leading Python whitespace. -/
def dropSpace : List Char → List Char
  | [] => []
  | c :: rest => if pyIsSpace c then dropSpace rest else c :: rest

/-- Python `str.strip()`: remove whitespace from both ends. -/
def pyStrip (s : List Char) : List Char :=
  ((dropSpace ((dropSpace s).reverse)).reverse)

/-! ## `validate_query_input` (security_config.py, lines 125–152) -/

/-- The fixed denylist `malicious_patterns` from `validate_query_input`,
verbatim from the source (note the capital `T` in `"shell=True"`). -/
def malicious_patterns : List (List Char) :=
  [ "javascript:".data,
    "<script".data,
    "eval(".data,
    "exec(".data,
    "import(".data,
    "__import__".data,
    "subprocess".data,
    "os.system".data,
    "shell=True".data ]

/-- `validate_query_input(query)` from `security_config.py`:
reject the empty string (`not query`), reject length `> 1000`,
reject when the lowercased query contains any denylist pattern,
otherwise accept.  (The `isinstance` guard is vacuous here because the
model input is always a string.) -/
def validate_query_input (query : List Char) : Bool :=
  if query.isEmpty then false
  else if 1000 < query.length then false
  else
    let query_lower := query.map Char.toLower
    if malicious_patterns.any (fun pattern => hasSub pattern query_lower) then false
    else true

/-- The pydantic validator `QueryRequest.validate_query` (main.py,
lines 47–51): raise (`none`) when `validate_query_input` fails,
otherwise return the stripped query. -/
def validate_query (v : List Char) : Option (List Char) :=
  if validate_query_input v then some (pyStrip v) else none

/-! ## `SecurityConfig.validate_api_key` and `APIKeyAuth.__call__`
(security_config.py, lines 36–43 and 61–80) -/

/-- The configuration fields of `SecurityConfig` the authenticator reads:
`environment` (the `ENVIRONMENT` variable, default `"development"`) and
the filtered `API_KEYS` list returned by `get_api_keys`. -/
structure AuthConfig where
  environment : String
  api_keys : List String

/-- `SecurityConfig.validate_api_key`: when no API keys are configured
every key is accepted (the source comments this "development mode" but
applies it in every environment); otherwise membership is required. -/
def validate_api_key (cfg : AuthConfig) (api_key : String) : Bool :=
  if cfg.api_keys.isEmpty then true
  else cfg.api_keys.contains api_key

/-- The request fields `APIKeyAuth.__call__` reads: the `X-API-Key`
header value if present, and the parsed `Authorization: Bearer` token
(`none` when the header is absent, empty, or uses another scheme —
`HTTPBearer` with `auto_error=False` yields `None` in those cases). -/
structure AuthRequest where
  header_api_key : Option String
  bearer_token : Option String

/-- The four possible outcomes of `APIKeyAuth.__call__`: the development
bypass (`return None`), admission with a header credential, admission
with a bearer credential, or the 401 `HTTPException`. -/
inductive AuthOutcome where
  | bypass : AuthOutcome
  | apiKeyCred : String → AuthOutcome
  | bearerCred : String → AuthOutcome
  | reject401 : AuthOutcome
deriving DecidableEq

/-- The bearer-token arm of `APIKeyAuth.__call__` (lines 72–80):
`credentials` is truthy only for a present, non-empty token. -/
def tryBearer (cfg : AuthConfig) (req : AuthRequest) : AuthOutcome :=
  match req.bearer_token with
  | some t =>
    if !(t == "") && validate_api_key cfg t then AuthOutcome.bearerCred t
    else AuthOutcome.reject401
  | none => AuthOutcome.reject401

/-- `APIKeyAuth.__call__` (security_config.py, lines 61–80): development
bypass when no keys are configured, then the `X-API-Key` header (Python
truthiness: an empty header value is falsy), then the bearer token,
else 401. -/
def apiKeyAuth (cfg : AuthConfig) (req : AuthRequest) : AuthOutcome :=
  if cfg.environment = "development" ∧ cfg.api_keys.isEmpty then
    AuthOutcome.bypass
  else
    match req.header_api_key with
    | some k =>
      if !(k == "") && validate_api_key cfg k then AuthOutcome.apiKeyCred k
      else tryBearer cfg req
    | none => tryBearer cfg req

/-! ## `RateLimiter.is_allowed` (security_config.py, lines 90–110) -/

/-- Client identities (`client_ip` strings). -/
abbrev Ident := String

/-- The configuration fields `RateLimiter` reads:
`rate_limit_requests` (quota, default 100) and `rate_limit_window`
(window length in seconds, default 3600). -/
structure RLCfg where
  rate_limit_requests : Nat
  rate_limit_window : Int

/-- The `self.requests` dictionary: identity → recorded timestamps;
`none` models absence of the key. -/
def RLState : Type := Ident → Option (List Int)

/-- The empty dictionary `self.requests = {}` of `RateLimiter.__init__`. -/
def initState : RLState := fun _ => none

/-- Dictionary update `self.requests[client_ip] = l`. -/
def updState (st : RLState) (ip : Ident) (l : List Int) : RLState :=
  fun k => if k = ip then some l else st k

/-- `RateLimiter.is_allowed(client_ip)`: purge the identity's entries
that are not strictly newer than `now - window` (the source keeps
`req_time > window_start`), write the purged list back, reject without
recording when the purged count reaches the quota, otherwise append
`now` and admit.  Returns the boolean result and the new dictionary. -/
def is_allowed (cfg : RLCfg) (st : RLState) (ip : Ident) (now : Int) :
    Bool × RLState :=
  let cur := match st ip with
    | some l => l.filter (fun t => decide (now - cfg.rate_limit_window < t))
    | none => []
  if cfg.rate_limit_requests ≤ cur.length then
    (false, updState st ip cur)
  else
    (true, updState st ip (cur ++ [now]))

/-- The stored window of an identity (`[]` when the key is absent). -/
def windowOf (st : RLState) (ip : Ident) : List Int :=
  (st ip).getD []

/-- Run a sequence of `is_allowed` calls `(identity, time)`, returning
the final dictionary. -/
def runCalls (cfg : RLCfg) : RLState → List (Ident × Int) → RLState
  | st, [] => st
  | st, (j, t) :: rest => runCalls cfg (is_allowed cfg st j t).2 rest

/-- The timestamps of the calls for identity `ip` that `is_allowed`
admitted (returned `true`), over a call sequence. -/
def admittedFor (cfg : RLCfg) (ip : Ident) :
    RLState → List (Ident × Int) → List Int
  | _, [] => []
  | st, (j, t) :: rest =>
    let r := is_allowed cfg st j t
    (if j = ip ∧ r.1 = true then [t] else []) ++ admittedFor cfg ip r.2 rest

/-- Membership of a timestamp in the trailing half-open window
`(t - W, t]`. -/
def inWindow (W t x : Int) : Bool :=
  decide (t - W < x) && decide (x ≤ t)

/-- The purge step as claim C4 words it: only entries *strictly* older
than `now - window` are dropped, so an entry exactly at the boundary is
retained. -/
def purge_spec (W now : Int) (l : List Int) : List Int :=
  l.filter (fun t => decide (now - W ≤ t))

/-! ## The middleware stack of `main.py` (lines 83–125)

An HTTP response is modelled by its status, header list and body.  Each
`@app.middleware("http")` function is a transformer of handlers.
Starlette's `add_middleware` inserts at the front of the middleware
list and builds the stack with the front outermost, so the
*last-registered* middleware is outermost.  `main.py` registers
`add_security_headers` (line 83), then `rate_limit_middleware`
(line 95), then `log_requests` (line 111); the resulting request path
is `log_requests → rate_limit_middleware → add_security_headers →
router`.  Consequently a response that `rate_limit_middleware` returns
directly never passes through `add_security_headers`. -/

structure HttpReq where
  client_host : Ident

structure HttpResponse where
  status : Nat
  headers : List (String × String)
  body : String
deriving DecidableEq

/-- `get_security_headers()` (security_config.py, lines 113–122). -/
def get_security_headers : List (String × String) :=
  [ ("X-Content-Type-Options", "nosniff"),
    ("X-Frame-Options", "DENY"),
    ("X-XSS-Protection", "1; mode=block"),
    ("Strict-Transport-Security", "max-age=31536000; includeSubDomains"),
    ("Content-Security-Policy", "default-src 'self'"),
    ("Referrer-Policy", "strict-origin-when-cross-origin") ]

/-- `response.headers[k] = v`: replace any existing entry for `k`. -/
def setHeader (hs : List (String × String)) (k v : String) :
    List (String × String) :=
  hs.filter (fun p => !(p.1 == k)) ++ [(k, v)]

/-- Header lookup by name. -/
def headerGet (hs : List (String × String)) (k : String) : Option String :=
  (hs.find? (fun p => p.1 == k)).map Prod.snd

/-- `add_security_headers` (main.py, lines 83–92): call the inner
handler, then set each security header on the response. -/
def add_security_headers (call_next : HttpReq → HttpResponse)
    (request : HttpReq) : HttpResponse :=
  let response := call_next request
  { response with
    headers := get_security_headers.foldl
      (fun hs kv => setHeader hs kv.1 kv.2) response.headers }

/-- The body of the 429 rejection in `rate_limit_middleware`.  (The
`JSONResponse` carries only content-type/length headers, none of the
security headers, so its header list is modelled as empty.) -/
def rateLimitBody : String :=
  "\x7b\"error\": \"Rate limit exceeded\", \"detail\": \"Too many requests\"\x7d"

/-- `rate_limit_middleware` (main.py, lines 95–108): consult the rate
limiter for `request.client.host`; on rejection return the 429
`JSONResponse` directly (skipping the inner handler), otherwise pass
through. -/
def rate_limit_middleware (allowed : Bool)
    (call_next : HttpReq → HttpResponse) (request : HttpReq) : HttpResponse :=
  if allowed then call_next request
  else { status := 429, headers := [], body := rateLimitBody }

/-- `log_requests` (main.py, lines 111–125): logging only; the response
passes through unchanged. -/
def log_requests (call_next : HttpReq → HttpResponse)
    (request : HttpReq) : HttpResponse :=
  call_next request

/-- The composed user-middleware stack around a router handler, in the
request order derived above, with the rate-limit decision taken by
`is_allowed` on the request's client host at clock reading `now`. -/
def app_stack (cfg : RLCfg) (st : RLState) (now : Int)
    (router : HttpReq → HttpResponse) (request : HttpReq) : HttpResponse :=
  log_requests
    (rate_limit_middleware (is_allowed cfg st request.client_host now).1
      (add_security_headers router))
    request

/-! ## The `/crewai` endpoint (main.py, lines 161–185)

`run_crew_query` is external (`from cai import run_crew_query`); it is
modelled as a function returning either a result or a raised-exception
message.  The endpoint's `except` branch builds
`error_msg = f"Error processing marketing query: {str(e)}"`, logs it,
and raises `HTTPException(status_code=500, detail=error_msg)`; FastAPI
serializes that exception's `detail` into the client-visible body. -/

structure EndpointResult where
  status : Nat
  detail : String
  logs : List String
deriving DecidableEq

/-- `query_crew_endpoint` (main.py, lines 161–185), given the external
processor `run_crew_query` and the validated query string. -/
def query_crew_endpoint (run_crew_query : String → Except String String)
    (query : String) : EndpointResult :=
  match run_crew_query query with
  | Except.ok result =>
    { status := 200, detail := result,
      logs := ["Marketing query processed successfully"] }
  | Except.error e =>
    let error_msg := "Error processing marketing query: " ++ e
    { status := 500, detail := error_msg, logs := [error_msg] }

/-- `global_exception_handler` (main.py, lines 188–202): the sanitized
catch-all body, used only for exceptions that escape the endpoint. -/
def global_exception_handler : EndpointResult :=
  { status := 500, detail := "An unexpected error occurred",
    logs := ["Unhandled exception"] }

/-! ## Authentication: claims C1 and C9 -/

/-- C1 (code bug): in production mode with an empty credential set the
authenticator is claimed to reject every request with 401.  Evaluating
the embedded `APIKeyAuth.__call__` at the failing input shows otherwise:
`validate_api_key` accepts *every* key whenever the configured set is
empty, in every mode, so a production request presenting the header
`X-API-Key: anykey` (or any bearer token) is admitted; only a
credential-less production request receives 401.  The development half
of the claim (empty set ⇒ bypass) does hold. -/
theorem C1_production_empty_keys_admits :
    validate_api_key ⟨"production", []⟩ "anykey" = true
    ∧ apiKeyAuth ⟨"production", []⟩ ⟨some "anykey", none⟩
        = AuthOutcome.apiKeyCred "anykey"
    ∧ apiKeyAuth ⟨"production", []⟩ ⟨none, some "sometoken"⟩
        = AuthOutcome.bearerCred "sometoken"
    ∧ apiKeyAuth ⟨"production", []⟩ ⟨none, none⟩ = AuthOutcome.reject401
    ∧ apiKeyAuth ⟨"development", []⟩ ⟨none, none⟩ = AuthOutcome.bypass := by
  decide

/-- C9: when the configured credential set is empty, `validate_api_key`
accepts every key in every deployment mode, and consequently any request
presenting a (non-empty) value in the `X-API-Key` header is admitted by
the authenticator — in production as well as in development. -/
theorem C9_empty_keyset_admits_any_key (cfg : AuthConfig)
    (hkeys : cfg.api_keys = []) (k : String) (hk : k ≠ "")
    (req : AuthRequest) (hreq : req.header_api_key = some k) :
    validate_api_key cfg k = true
    ∧ apiKeyAuth cfg req ≠ AuthOutcome.reject401 := by
  have hempty : cfg.api_keys.isEmpty = true := by rw [hkeys]; rfl
  have hvk : validate_api_key cfg k = true := by
    unfold validate_api_key
    rw [hempty]
    rfl
  refine ⟨hvk, ?_⟩
  unfold apiKeyAuth
  split
  · intro hcontra
    exact AuthOutcome.noConfusion hcontra
  · rw [hreq]
    have hkb : (k == "") = false := by
      exact beq_eq_false_iff_ne.mpr hk
    simp [hkb, hvk]

/-- Witness for C9 at a concrete production configuration and request. -/
theorem C9_empty_keyset_admits_any_key_witness :
    validate_api_key ⟨"production", []⟩ "somekey" = true
    ∧ apiKeyAuth ⟨"production", []⟩ ⟨some "somekey", none⟩
        ≠ AuthOutcome.reject401 :=
  C9_empty_keyset_admits_any_key ⟨"production", []⟩ rfl "somekey" (by decide)
    ⟨some "somekey", none⟩ rfl

/-! ## Input validation: claim C6 -/

/-- Closed form of `validate_query_input` as one boolean expression. -/
theorem validate_query_input_eq (q : List Char) :
    validate_query_input q =
      (!q.isEmpty && !decide (1000 < q.length) &&
        !(malicious_patterns.any fun p => hasSub p (q.map Char.toLower))) := by
  unfold validate_query_input
  split_ifs with h1 h2
  · simp [h1]
  · simp [h1, h2]
  · cases hany : malicious_patterns.any fun p => hasSub p (q.map Char.toLower) <;>
      simp [h1, h2, hany]

/-- C6 counterexample: a whitespace-only query is empty after trimming,
yet `validate_query_input` accepts it (Python `not query` is false for a
non-empty whitespace-only string — the emptiness test precedes any
trimming), and the pydantic validator then canonicalizes it to the empty
string; the claim requires such input to be rejected. -/
theorem C6_counterexample :
    pyStrip [' '] = [] ∧ validate_query [' '] = some [] := by decide

set_option maxRecDepth 8000 in
/-- C6 (amended): `validate_query_input` accepts exactly the non-empty
queries of character count at most 1000 whose lowercased text contains
no denylist pattern as a literal substring; on acceptance the pydantic
validator returns the trimmed text and on rejection it raises.  A string
of exactly 1000 non-blacklisted characters is accepted and one of 1001
is rejected.  Deviations from the claim as stated: a whitespace-only
query (empty after trimming) is accepted, and the denylist entry
`"shell=True"` contains an upper-case letter, so it can never occur in
the lowercased text: a query containing `shell=True` verbatim is
accepted. -/
theorem C6_amended (q : List Char) :
    (validate_query_input q = true ↔
      q ≠ [] ∧ q.length ≤ 1000 ∧
        ∀ p ∈ malicious_patterns, hasSub p (q.map Char.toLower) = false)
    ∧ (validate_query_input q = true → validate_query q = some (pyStrip q))
    ∧ (validate_query_input q = false → validate_query q = none)
    ∧ validate_query_input (List.replicate 1000 'a') = true
    ∧ validate_query_input (List.replicate 1001 'a') = false
    ∧ "shell=True".data ∈ malicious_patterns
    ∧ validate_query_input ("shell=True".data) = true := by
  refine ⟨?_, ?_, ?_, by decide, by decide, by decide, by decide⟩
  · rw [validate_query_input_eq]
    simp [List.isEmpty_iff, Nat.not_lt, List.any_eq_false, and_assoc]
  · intro h
    simp [validate_query, h]
  · intro h
    simp [validate_query, h]

/-- Witness for C6 (amended) at a concrete accepted query. -/
theorem C6_amended_witness :
    validate_query ['a'] = some (pyStrip ['a']) :=
  (C6_amended ['a']).2.1 (by decide)

/-! ## Rate limiter: characterization lemmas -/

/-- `is_allowed` written as one equation over the looked-up window
(`windowOf` folds the dictionary-membership branch of the source into
`Option.getD`). -/
theorem is_allowed_eq (cfg : RLCfg) (st : RLState) (ip : Ident) (now : Int) :
    is_allowed cfg st ip now =
      if cfg.rate_limit_requests ≤
          ((windowOf st ip).filter
            (fun t => decide (now - cfg.rate_limit_window < t))).length
      then (false, updState st ip ((windowOf st ip).filter
            (fun t => decide (now - cfg.rate_limit_window < t))))
      else (true, updState st ip ((windowOf st ip).filter
            (fun t => decide (now - cfg.rate_limit_window < t)) ++ [now])) := by
  unfold is_allowed windowOf
  cases st ip <;> rfl

/-- The boolean result of `is_allowed`: admitted exactly when fewer than
`rate_limit_requests` purged entries remain. -/
theorem is_allowed_fst (cfg : RLCfg) (st : RLState) (ip : Ident) (now : Int) :
    (is_allowed cfg st ip now).1 =
      decide (((windowOf st ip).filter
          (fun t => decide (now - cfg.rate_limit_window < t))).length
        < cfg.rate_limit_requests) := by
  rw [is_allowed_eq]
  split_ifs with h
  · simp [Nat.not_lt.mpr h]
  · simp [Nat.not_le.mp h]

/-- The stored window of the checked identity after `is_allowed`: the
entries strictly newer than `now - window`, with `now` appended exactly
when the call admitted. -/
theorem is_allowed_snd_self (cfg : RLCfg) (st : RLState) (ip : Ident) (now : Int) :
    windowOf (is_allowed cfg st ip now).2 ip =
      (windowOf st ip).filter (fun t => decide (now - cfg.rate_limit_window < t))
        ++ (if (is_allowed cfg st ip now).1 then [now] else []) := by
  rw [is_allowed_eq]
  split_ifs <;> simp_all [windowOf, updState]

/-- `is_allowed` touches no identity other than the checked one. -/
theorem is_allowed_snd_other (cfg : RLCfg) (st : RLState) (ip : Ident)
    (now : Int) (k : Ident) (h : k ≠ ip) :
    (is_allowed cfg st ip now).2 k = st k := by
  rw [is_allowed_eq]
  split_ifs <;> simp [updState, h]

/-- The boolean result of `is_allowed` depends only on the checked
identity's own stored window. -/
theorem is_allowed_congr (cfg : RLCfg) (st₁ st₂ : RLState) (ip : Ident)
    (now : Int) (h : st₁ ip = st₂ ip) :
    (is_allowed cfg st₁ ip now).1 = (is_allowed cfg st₂ ip now).1 := by
  rw [is_allowed_fst, is_allowed_fst]
  unfold windowOf
  rw [h]

/-! ## Claim C4: the per-call algorithm -/

/-- C4 counterexample: with window 60 and an entry recorded exactly 60
seconds ago (timestamp 40, now 100), the code's purge drops the entry —
the filter keeps only entries *strictly newer* than `now - window` —
although the entry is not strictly older than `now - window`, so the
claim ("entries strictly older … are dropped … and no others") predicts
the window `[40, 100]` after an admitting call while the code leaves
`[100]`. -/
theorem C4_counterexample :
    windowOf (is_allowed ⟨100, 60⟩ (updState initState "a" [40]) "a" 100).2 "a"
        = [100]
    ∧ purge_spec 60 100 [40] = [40]
    ∧ windowOf (is_allowed ⟨100, 60⟩ (updState initState "a" [40]) "a" 100).2 "a"
        ≠ purge_spec 60 100 [40] ++ [100] := by
  decide

/-- C4 (amended): on each `is_allowed` call for an identity, the entries
of that identity's window that are *not strictly newer* than
`now - window` are dropped (an entry exactly `window` old is dropped
too) and the windows of other identities are untouched; if at least
`rate_limit_requests` entries remain the call returns `false` and does
not record the request, otherwise it appends `now` and returns `true`. -/
theorem C4_amended (cfg : RLCfg) (st : RLState) (ip : Ident) (now : Int) :
    ((is_allowed cfg st ip now).1 = true ↔
      ((windowOf st ip).filter
          (fun t => decide (now - cfg.rate_limit_window < t))).length
        < cfg.rate_limit_requests)
    ∧ windowOf (is_allowed cfg st ip now).2 ip =
        (windowOf st ip).filter
            (fun t => decide (now - cfg.rate_limit_window < t))
          ++ (if (is_allowed cfg st ip now).1 then [now] else [])
    ∧ ∀ k, k ≠ ip → (is_allowed cfg st ip now).2 k = st k := by
  refine ⟨?_, is_allowed_snd_self cfg st ip now,
    fun k hk => is_allowed_snd_other cfg st ip now k hk⟩
  rw [is_allowed_fst]
  exact decide_eq_true_iff

/-- Witness for C4 (amended): a first call for a fresh identity is
admitted, records the timestamp, and leaves other identities alone. -/
theorem C4_amended_witness :
    (is_allowed ⟨1, 60⟩ initState "a" 5).1 = true
    ∧ windowOf (is_allowed ⟨1, 60⟩ initState "a" 5).2 "a" = [5]
    ∧ (is_allowed ⟨1, 60⟩ initState "a" 5).2 "b" = initState "b" := by
  refine ⟨(C4_amended ⟨1, 60⟩ initState "a" 5).1.mpr (by decide), ?_,
    (C4_amended ⟨1, 60⟩ initState "a" 5).2.2 "b" (by decide)⟩
  rw [(C4_amended ⟨1, 60⟩ initState "a" 5).2.1]
  decide

/-! ## Claim C7: the post-check window invariant -/

/-- C7: immediately after any `is_allowed` check, every timestamp stored
for the checked identity lies within `[now - window, now]` (assuming a
non-negative window length and that previously recorded timestamps do
not lie in the future, both guaranteed in the source by the
configuration contract and the monotone clock), and the entries of every
other identity are untouched by the call — purging is lazy and per
identity. -/
theorem C7_window_in_range (cfg : RLCfg) (st : RLState) (ip : Ident)
    (now : Int) (hW : 0 ≤ cfg.rate_limit_window)
    (hpast : ∀ x ∈ windowOf st ip, x ≤ now) :
    (∀ x ∈ windowOf (is_allowed cfg st ip now).2 ip,
        now - cfg.rate_limit_window ≤ x ∧ x ≤ now)
    ∧ ∀ k, k ≠ ip → (is_allowed cfg st ip now).2 k = st k := by
  refine ⟨?_, fun k hk => is_allowed_snd_other cfg st ip now k hk⟩
  intro x hx
  rw [is_allowed_snd_self] at hx
  rcases List.mem_append.mp hx with hx | hx
  · rcases List.mem_filter.mp hx with ⟨hmem, hnew⟩
    have hlt : now - cfg.rate_limit_window < x := of_decide_eq_true hnew
    exact ⟨le_of_lt hlt, hpast x hmem⟩
  · have hx' : x = now := by
      rcases hb : (is_allowed cfg st ip now).1 with _ | _ <;> rw [hb] at hx <;>
        simp_all
    subst hx'
    omega

/-- Witness for C7 at a concrete state with one in-range entry. -/
theorem C7_window_in_range_witness :
    (∀ x ∈ windowOf (is_allowed ⟨2, 60⟩ (updState initState "a" [90]) "a" 100).2 "a",
        100 - 60 ≤ x ∧ x ≤ 100)
    ∧ ∀ k, k ≠ "a" →
        (is_allowed ⟨2, 60⟩ (updState initState "a" [90]) "a" 100).2 k
          = updState initState "a" [90] k :=
  C7_window_in_range ⟨2, 60⟩ (updState initState "a" [90]) "a" 100
    (by decide) (by decide)

/-! ## Claim C8: identities are fully independent -/

/-- `runCalls` for one identity leaves every other identity's dictionary
entry unchanged. -/
theorem runCalls_frame (cfg : RLCfg) (A B : Ident) (hBA : B ≠ A)
    (times : List Int) :
    ∀ st : RLState, runCalls cfg st (times.map fun t => (A, t)) B = st B := by
  induction times with
  | nil => intro st; rfl
  | cons t ts ih =>
    intro st
    show runCalls cfg (is_allowed cfg st A t).2 (ts.map fun t => (A, t)) B
      = st B
    rw [ih]
    exact is_allowed_snd_other cfg st A t B hBA

/-- C8: the outcome of `is_allowed` for identity `B` is unchanged by any
prior sequence of `is_allowed` calls for a different identity `A` —
exhausting `A`'s quota never affects `B`'s admissibility. -/
theorem C8_identity_independence (cfg : RLCfg) (st : RLState) (A B : Ident)
    (hAB : A ≠ B) (times : List Int) (now : Int) :
    (is_allowed cfg (runCalls cfg st (times.map fun t => (A, t))) B now).1
      = (is_allowed cfg st B now).1 :=
  is_allowed_congr cfg _ st B now (runCalls_frame cfg A B (Ne.symm hAB) times st)

/-- Witness for C8: identity `A` exhausts a quota of 1; identity `B`'s
next request is admitted exactly as it would have been from the start. -/
theorem C8_identity_independence_witness :
    (is_allowed ⟨1, 60⟩ (runCalls ⟨1, 60⟩ initState ([0, 1, 2].map fun t => ("A", t)))
        "B" 3).1
      = (is_allowed ⟨1, 60⟩ initState "B" 3).1 :=
  C8_identity_independence ⟨1, 60⟩ initState "A" "B" (by decide) [0, 1, 2] 3

/-! ## Claim C10: the stored window never exceeds the quota -/

/-- C10: starting from the empty dictionary, after any sequence of
`is_allowed` calls no identity's stored window holds more than
`rate_limit_requests` timestamps — a timestamp is appended only when the
purged count is strictly below the quota. -/
theorem C10_window_length_le (cfg : RLCfg)
    (hQ : 1 ≤ cfg.rate_limit_requests) (trace : List (Ident × Int))
    (ip : Ident) :
    (windowOf (runCalls cfg initState trace) ip).length
      ≤ cfg.rate_limit_requests := by
  suffices h : ∀ st : RLState,
      (∀ k, (windowOf st k).length ≤ cfg.rate_limit_requests) →
      ∀ k, (windowOf (runCalls cfg st trace) k).length
        ≤ cfg.rate_limit_requests by
    exact h initState (fun k => by simp [windowOf, initState]) ip
  induction trace with
  | nil => exact fun st h k => h k
  | cons c rest ih =>
    intro st h k
    show (windowOf (runCalls cfg (is_allowed cfg st c.1 c.2).2 rest) k).length
      ≤ cfg.rate_limit_requests
    apply ih
    intro k'
    by_cases hk : k' = c.1
    · subst hk
      rw [is_allowed_snd_self, is_allowed_fst]
      by_cases hlen :
          ((windowOf st c.1).filter
            (fun t => decide (c.2 - cfg.rate_limit_window < t))).length
          < cfg.rate_limit_requests
      · simp [hlen]
        omega
      · simp [hlen]
        calc ((windowOf st c.1).filter
              (fun t => decide (c.2 - cfg.rate_limit_window < t))).length
            ≤ (windowOf st c.1).length := List.length_filter_le _ _
          _ ≤ cfg.rate_limit_requests := h c.1
    · rw [show windowOf (is_allowed cfg st c.1 c.2).2 k' = windowOf st k' from
        congrArg (fun o => o.getD []) (is_allowed_snd_other cfg st c.1 c.2 k' hk)]
      exact h k'

/-- Witness for C10 on a trace that overfills a quota-2 limiter. -/
theorem C10_window_length_le_witness :
    (windowOf (runCalls ⟨2, 60⟩ initState
        [("a", 0), ("a", 1), ("a", 2), ("a", 3)]) "a").length ≤ 2 :=
  C10_window_length_le ⟨2, 60⟩ (by decide)
    [("a", 0), ("a", 1), ("a", 2), ("a", 3)] "a"

/-! ## Claim C5: the sliding-window quota bound

The invariant proof tracks, along a monotone call trace, the list `past`
of timestamps admitted so far for one identity, the identity's stored
window, and the time `u` of the last processed call. -/

/-- Counting split: when `q` implies `p`, the `p`-count is the `q`-count
plus the count of elements satisfying `p` but not `q`. -/
theorem countP_imp_split (m : List Int) (p q : Int → Bool)
    (hpq : ∀ x, q x = true → p x = true) :
    m.countP p = m.countP q + m.countP (fun x => p x && !q x) := by
  induction m with
  | nil => rfl
  | cons a t ih =>
    simp only [List.countP_cons, ih]
    cases hq : q a
    · cases hp : p a <;> simp [hp, hq] <;> omega
    · have hp := hpq a hq
      simp [hp, hq]
      omega

/-- Raising the threshold preserves "every in-range element of `m` is
represented in the sublist `l`, with multiplicity". -/
theorem countP_le_of_sublist_threshold (l m : List Int) (θ θ' : Int)
    (hθ : θ ≤ θ') (hsub : List.Sublist l m)
    (h : m.countP (fun x => decide (θ < x)) ≤ l.countP (fun x => decide (θ < x))) :
    m.countP (fun x => decide (θ' < x)) ≤ l.countP (fun x => decide (θ' < x)) := by
  have himp : ∀ x : Int, decide (θ' < x) = true → decide (θ < x) = true := by
    intro x hx
    exact decide_eq_true (lt_of_le_of_lt hθ (of_decide_eq_true hx))
  have hm := countP_imp_split m _ _ himp
  have hl := countP_imp_split l _ _ himp
  have hs : l.countP (fun x => decide (θ < x) && !decide (θ' < x))
      ≤ m.countP (fun x => decide (θ < x) && !decide (θ' < x)) :=
    hsub.countP_le _
  omega

/-- Filtering by a predicate preserves the count of that predicate. -/
theorem countP_filter_self (l : List Int) (p : Int → Bool) :
    (l.filter p).countP p = l.countP p := by
  rw [List.countP_filter]
  congr 1
  funext x
  exact Bool.and_self (p x)

/-- The trace invariant behind C5: if every past admitted timestamp for
`ip` is either stored in `ip`'s window or expired relative to the last
call time `u`, the stored window is a sublist of the admitted
timestamps, every half-open trailing window already holds at most the
quota of admitted timestamps, and the remaining trace is monotone and
not earlier than `u`, then after running the trace every half-open
trailing window still holds at most the quota. -/
theorem rl_quota_invariant (cfg : RLCfg) (ip : Ident) :
    ∀ (trace : List (Ident × Int)) (st : RLState) (past : List Int) (u : Int),
      List.Sublist (windowOf st ip) past →
      past.countP (fun x => decide (u - cfg.rate_limit_window < x))
        ≤ (windowOf st ip).countP
            (fun x => decide (u - cfg.rate_limit_window < x)) →
      (∀ t : Int, past.countP (inWindow cfg.rate_limit_window t)
        ≤ cfg.rate_limit_requests) →
      (∀ x ∈ past, x ≤ u) →
      (∀ p ∈ trace, u ≤ p.2) →
      List.Pairwise (fun a b : Ident × Int => a.2 ≤ b.2) trace →
      ∀ t : Int, (past ++ admittedFor cfg ip st trace).countP
          (inWindow cfg.rate_limit_window t) ≤ cfg.rate_limit_requests := by
  intro trace
  induction trace with
  | nil =>
    intro st past u hsub hB hC hD hu hmono t
    simpa [admittedFor] using hC t
  | cons c rest ih =>
    intro st past u hsub hB hC hD hu hmono t
    obtain ⟨j, s⟩ := c
    have hus : u ≤ s := hu (j, s) (List.mem_cons_self _ _)
    have hrest_u : ∀ p ∈ rest, s ≤ p.2 := (List.pairwise_cons.mp hmono).1
    have hmono' := (List.pairwise_cons.mp hmono).2
    have hB' : past.countP (fun x => decide (s - cfg.rate_limit_window < x))
        ≤ (windowOf st ip).countP
            (fun x => decide (s - cfg.rate_limit_window < x)) :=
      countP_le_of_sublist_threshold _ _ _ _ (by omega) hsub hB
    have hD' : ∀ x ∈ past, x ≤ s := fun x hx => le_trans (hD x hx) hus
    by_cases hj : j = ip
    · subst hj
      by_cases hb : (is_allowed cfg st j s).1 = true
      · -- admitted: the timestamp `s` joins both `past` and the window
        have hlen : ((windowOf st j).filter
              (fun x => decide (s - cfg.rate_limit_window < x))).length
            < cfg.rate_limit_requests := by
          have := is_allowed_fst cfg st j s
          rw [hb] at this
          exact of_decide_eq_true this.symm
        have hwin : windowOf (is_allowed cfg st j s).2 j =
            (windowOf st j).filter
              (fun x => decide (s - cfg.rate_limit_window < x)) ++ [s] := by
          rw [is_allowed_snd_self, hb]
          simp
        have hcount_mid : past.countP
            (fun x => decide (s - cfg.rate_limit_window < x))
            ≤ ((windowOf st j).filter
              (fun x => decide (s - cfg.rate_limit_window < x))).length := by
          calc past.countP (fun x => decide (s - cfg.rate_limit_window < x))
              ≤ (windowOf st j).countP
                  (fun x => decide (s - cfg.rate_limit_window < x)) := hB'
            _ = ((windowOf st j).filter
                  (fun x => decide (s - cfg.rate_limit_window < x))).countP
                  (fun x => decide (s - cfg.rate_limit_window < x)) :=
                (countP_filter_self _ _).symm
            _ ≤ ((windowOf st j).filter
                  (fun x => decide (s - cfg.rate_limit_window < x))).length :=
                List.countP_le_length _
        have hstep := ih (is_allowed cfg st j s).2 (past ++ [s]) s
          (by
            rw [hwin]
            exact List.Sublist.append
              ((List.filter_sublist (windowOf st j)).trans hsub)
              (List.Sublist.refl _))
          (by
            rw [hwin]
            simp only [List.countP_append]
            have h2 : ((windowOf st j).filter
                (fun x => decide (s - cfg.rate_limit_window < x))).countP
                (fun x => decide (s - cfg.rate_limit_window < x))
                = (windowOf st j).countP
                  (fun x => decide (s - cfg.rate_limit_window < x)) :=
              countP_filter_self _ _
            omega)
          (by
            intro t'
            simp only [List.countP_append]
            by_cases hin : inWindow cfg.rate_limit_window t' s = true
            · have hle_s_t : s ≤ t' := by
                have := of_decide_eq_true (Bool.and_elim_right hin)
                exact this
              have hmono_count : past.countP (inWindow cfg.rate_limit_window t')
                  ≤ past.countP
                    (fun x => decide (s - cfg.rate_limit_window < x)) := by
                apply List.countP_mono_left
                intro x hx hxin
                have h1 := of_decide_eq_true (Bool.and_elim_left hxin)
                apply decide_eq_true
                omega
              have hsingle : List.countP (inWindow cfg.rate_limit_window t') [s]
                  = 1 := by
                simp [hin]
              omega
            · have hsingle : List.countP (inWindow cfg.rate_limit_window t') [s]
                  = 0 := by
                simp [List.countP_cons, hin]
              have := hC t'
              omega)
          (by
            intro x hx
            rcases List.mem_append.mp hx with hx | hx
            · exact hD' x hx
            · simp only [List.mem_singleton] at hx
              omega)
          hrest_u hmono'
        show (past ++ ((if (j = j ∧ (is_allowed cfg st j s).1 = true)
            then [s] else []) ++
            admittedFor cfg j (is_allowed cfg st j s).2 rest)).countP
            (inWindow cfg.rate_limit_window t) ≤ cfg.rate_limit_requests
        rw [if_pos ⟨rfl, hb⟩]
        have hassoc : past ++ ([s] ++
            admittedFor cfg j (is_allowed cfg st j s).2 rest)
            = (past ++ [s]) ++
              admittedFor cfg j (is_allowed cfg st j s).2 rest := by
          rw [List.append_assoc]
        rw [hassoc]
        exact hstep t
      · -- rejected: nothing is recorded, the purged window is stored
        have hwin : windowOf (is_allowed cfg st j s).2 j =
            (windowOf st j).filter
              (fun x => decide (s - cfg.rate_limit_window < x)) := by
          rw [is_allowed_snd_self]
          rw [Bool.not_eq_true] at hb
          rw [hb]
          simp
        have hstep := ih (is_allowed cfg st j s).2 past s
          (by
            rw [hwin]
            exact (List.filter_sublist (windowOf st j)).trans hsub)
          (by
            rw [hwin]
            rw [countP_filter_self]
            exact hB')
          hC hD' hrest_u hmono'
        show (past ++ ((if (j = j ∧ (is_allowed cfg st j s).1 = true)
            then [s] else []) ++
            admittedFor cfg j (is_allowed cfg st j s).2 rest)).countP
            (inWindow cfg.rate_limit_window t) ≤ cfg.rate_limit_requests
        rw [if_neg (fun hcon => hb hcon.2)]
        simpa using hstep t
    · -- a call for a different identity: frame
      have hwin : windowOf (is_allowed cfg st j s).2 ip = windowOf st ip := by
        unfold windowOf
        rw [is_allowed_snd_other cfg st j s ip (fun h => hj h.symm)]
      have hstep := ih (is_allowed cfg st j s).2 past s
        (by rw [hwin]; exact hsub)
        (by rw [hwin]; exact hB')
        hC hD' hrest_u hmono'
      show (past ++ ((if (j = ip ∧ (is_allowed cfg st j s).1 = true)
          then [s] else []) ++
          admittedFor cfg ip (is_allowed cfg st j s).2 rest)).countP
          (inWindow cfg.rate_limit_window t) ≤ cfg.rate_limit_requests
      rw [if_neg (fun hcon => hj hcon.1)]
      simpa using hstep t

/-- C5 counterexample: with quota 1 and window 60, the calls at times 0
and 60 are *both* admitted — the purge drops the entry recorded exactly
one window earlier — although both lie inside the single trailing
interval `[60 - 60, 60]` of length `rateLimitWindowSeconds`.  Read with
closed trailing intervals, the claim ("the (quota+1)-th request inside
such a window is always rejected") is therefore false: the second
request inside that interval was admitted. -/
theorem C5_counterexample :
    admittedFor ⟨1, 60⟩ "a" initState [("a", 0), ("a", 60)] = [0, 60]
    ∧ ((admittedFor ⟨1, 60⟩ "a" initState [("a", 0), ("a", 60)]).countP
        (fun x => decide (60 - 60 ≤ x) && decide (x ≤ 60))) = 2
    ∧ ¬ ((admittedFor ⟨1, 60⟩ "a" initState [("a", 0), ("a", 60)]).countP
        (fun x => decide (60 - 60 ≤ x) && decide (x ≤ 60)) ≤ 1) := by
  decide

/-- C5 (amended): with trailing windows taken *half-open* `(t - W, t]` —
equivalently, requests exactly one window length apart never share a
window — no more than `rate_limit_requests` admitted calls for an
identity ever fall in one trailing window, over any monotone call trace
from the initial state; and a request arriving more than one window
after every timestamp recorded for its identity is always admitted
(quota at least 1). -/
theorem C5_sliding_window_quota (cfg : RLCfg)
    (hQ : 1 ≤ cfg.rate_limit_requests) :
    (∀ (trace : List (Ident × Int)) (ip : Ident) (t : Int),
      List.Pairwise (fun a b : Ident × Int => a.2 ≤ b.2) trace →
      (admittedFor cfg ip initState trace).countP
          (inWindow cfg.rate_limit_window t)
        ≤ cfg.rate_limit_requests)
    ∧ (∀ (st : RLState) (ip : Ident) (now : Int),
      (∀ x ∈ windowOf st ip, x + cfg.rate_limit_window < now) →
      (is_allowed cfg st ip now).1 = true) := by
  constructor
  · intro trace ip t hmono
    cases trace with
    | nil => simp [admittedFor]
    | cons c rest =>
      have hinv := rl_quota_invariant cfg ip (c :: rest) initState [] c.2
        (by simp [windowOf, initState])
        (by simp [windowOf, initState])
        (fun t' => by simp)
        (fun x hx => absurd hx (List.not_mem_nil x))
        (by
          intro p hp
          rcases List.mem_cons.mp hp with hp | hp
          · rw [hp]
          · exact (List.pairwise_cons.mp hmono).1 p hp)
        hmono t
      simpa using hinv
  · intro st ip now hstale
    rw [is_allowed_fst]
    apply decide_eq_true
    have hnil : (windowOf st ip).filter
        (fun x => decide (now - cfg.rate_limit_window < x)) = [] := by
      apply List.filter_eq_nil_iff.mpr
      intro x hx
      have := hstale x hx
      simp only [Bool.not_eq_true, decide_eq_false_iff_not]
      omega
    rw [hnil]
    simpa using hQ

/-- Witness for C5 (amended) on a concrete trace and a concrete stale
window. -/
theorem C5_sliding_window_quota_witness :
    (admittedFor ⟨2, 60⟩ "a" initState [("a", 0), ("a", 1), ("a", 2)]).countP
        (inWindow 60 2) ≤ 2
    ∧ (is_allowed ⟨2, 60⟩ (updState initState "a" [0]) "a" 100).1 = true :=
  ⟨(C5_sliding_window_quota ⟨2, 60⟩ (by decide)).1
      [("a", 0), ("a", 1), ("a", 2)] "a" 2 (by decide),
   (C5_sliding_window_quota ⟨2, 60⟩ (by decide)).2
      (updState initState "a" [0]) "a" 100 (by decide)⟩

/-! ## Claim C2: security headers on every response -/

/-- Looking up the key just set finds the new value. -/
theorem headerGet_setHeader_self (hs : List (String × String)) (k v : String) :
    headerGet (setHeader hs k v) k = some v := by
  unfold headerGet setHeader
  rw [List.find?_append]
  have h1 : (hs.filter (fun p => !(p.1 == k))).find? (fun p => p.1 == k)
      = none := by
    rw [List.find?_eq_none]
    intro x hx
    have hx2 := (List.mem_filter.mp hx).2
    simp only [Bool.not_eq_true'] at hx2
    simp [hx2]
  rw [h1]
  simp

/-- Setting one key leaves lookups of a different key unchanged. -/
theorem headerGet_setHeader_other (hs : List (String × String)) (k v k' : String)
    (h : k' ≠ k) :
    headerGet (setHeader hs k v) k' = headerGet hs k' := by
  unfold headerGet setHeader
  rw [List.find?_append]
  have h2 : List.find? (fun p => p.1 == k') [(k, v)] = none := by
    simp only [List.find?]
    have : (k == k') = false := by
      simp only [beq_eq_false_iff_ne]
      exact fun hc => h hc.symm
    simp [this]
  rw [h2]
  have h3 : (hs.filter (fun p => !(p.1 == k))).find? (fun p => p.1 == k')
      = hs.find? (fun p => p.1 == k') := by
    induction hs with
    | nil => rfl
    | cons q t ih =>
      by_cases hq : q.1 = k
      · have hq1 : (q.1 == k) = true := by simp [hq]
        have hq2 : (q.1 == k') = false := by
          simp only [beq_eq_false_iff_ne, hq]
          exact fun hc => h hc.symm
        simp [List.filter_cons, hq1, List.find?, hq2, ih]
      · have hq1 : (q.1 == k) = false := by simp [hq]
        by_cases hq2 : (q.1 == k') = true
        · simp [List.filter_cons, hq1, List.find?, hq2]
        · simp only [Bool.not_eq_true] at hq2
          simp [List.filter_cons, hq1, List.find?, hq2, ih]
  rw [h3]
  simp

/-- After the `add_security_headers` loop, every one of the six security
headers is present with its fixed value, whatever headers the inner
response carried. -/
theorem security_fold_headers (hs : List (String × String)) :
    ∀ kv ∈ get_security_headers,
      headerGet (get_security_headers.foldl
        (fun h p => setHeader h p.1 p.2) hs) kv.1 = some kv.2 := by
  intro kv hkv
  show headerGet
      (setHeader (setHeader (setHeader (setHeader (setHeader (setHeader hs
        "X-Content-Type-Options" "nosniff")
        "X-Frame-Options" "DENY")
        "X-XSS-Protection" "1; mode=block")
        "Strict-Transport-Security" "max-age=31536000; includeSubDomains")
        "Content-Security-Policy" "default-src 'self'")
        "Referrer-Policy" "strict-origin-when-cross-origin") kv.1 = some kv.2
  simp only [get_security_headers, List.mem_cons, List.not_mem_nil,
    or_false] at hkv
  rcases hkv with rfl | rfl | rfl | rfl | rfl | rfl
  · rw [headerGet_setHeader_other _ _ _ _ (by decide),
      headerGet_setHeader_other _ _ _ _ (by decide),
      headerGet_setHeader_other _ _ _ _ (by decide),
      headerGet_setHeader_other _ _ _ _ (by decide),
      headerGet_setHeader_other _ _ _ _ (by decide),
      headerGet_setHeader_self]
  · rw [headerGet_setHeader_other _ _ _ _ (by decide),
      headerGet_setHeader_other _ _ _ _ (by decide),
      headerGet_setHeader_other _ _ _ _ (by decide),
      headerGet_setHeader_other _ _ _ _ (by decide),
      headerGet_setHeader_self]
  · rw [headerGet_setHeader_other _ _ _ _ (by decide),
      headerGet_setHeader_other _ _ _ _ (by decide),
      headerGet_setHeader_other _ _ _ _ (by decide),
      headerGet_setHeader_self]
  · rw [headerGet_setHeader_other _ _ _ _ (by decide),
      headerGet_setHeader_other _ _ _ _ (by decide),
      headerGet_setHeader_self]
  · rw [headerGet_setHeader_other _ _ _ _ (by decide),
      headerGet_setHeader_self]
  · rw [headerGet_setHeader_self]

/-- C2 counterexample: a rate-limited request (quota 1 already consumed)
receives the 429 response straight from `rate_limit_middleware`, which
sits *outside* `add_security_headers` in the middleware stack, so the
response carries none of the six security headers — the claim requires
all of them on every response including the 429 path. -/
theorem C2_counterexample :
    (app_stack ⟨1, 60⟩ (updState initState "c" [100]) 100
        (fun _ => ⟨200, [], "ok"⟩) ⟨"c"⟩).status = 429
    ∧ headerGet (app_stack ⟨1, 60⟩ (updState initState "c" [100]) 100
        (fun _ => ⟨200, [], "ok"⟩) ⟨"c"⟩).headers "X-Content-Type-Options" = none
    ∧ headerGet (app_stack ⟨1, 60⟩ (updState initState "c" [100]) 100
        (fun _ => ⟨200, [], "ok"⟩) ⟨"c"⟩).headers "Strict-Transport-Security"
      = none := by
  decide

/-- C2 (amended): every response the router produces — including the
401, 422 and endpoint-500 error responses, which are rendered inside the
routing layer — passes through `add_security_headers` and carries all
six security headers with their fixed values; the 429 response returned
directly by `rate_limit_middleware` bypasses `add_security_headers` and
carries none of them. -/
theorem C2_security_headers (cfg : RLCfg) (st : RLState) (now : Int)
    (router : HttpReq → HttpResponse) (request : HttpReq) :
    ((is_allowed cfg st request.client_host now).1 = true →
      ∀ kv ∈ get_security_headers,
        headerGet (app_stack cfg st now router request).headers kv.1
          = some kv.2)
    ∧ ((is_allowed cfg st request.client_host now).1 = false →
      (app_stack cfg st now router request).status = 429
      ∧ ∀ kv ∈ get_security_headers,
          headerGet (app_stack cfg st now router request).headers kv.1
            = none) := by
  constructor
  · intro hallow kv hkv
    unfold app_stack log_requests rate_limit_middleware
    rw [hallow]
    simp only [if_true]
    exact security_fold_headers (router request).headers kv hkv
  · intro hallow
    unfold app_stack log_requests rate_limit_middleware
    rw [hallow]
    exact ⟨rfl, fun kv _ => rfl⟩

/-- Witness for C2 (amended): an admitted request's response carries the
first security header; membership discharged concretely. -/
theorem C2_security_headers_witness :
    headerGet (app_stack ⟨1, 60⟩ initState 0
        (fun _ => ⟨200, [], "ok"⟩) ⟨"c"⟩).headers "X-Content-Type-Options"
      = some "nosniff" :=
  (C2_security_headers ⟨1, 60⟩ initState 0 (fun _ => ⟨200, [], "ok"⟩) ⟨"c"⟩).1
    (by decide) ("X-Content-Type-Options", "nosniff") (by decide)

/-! ## Claim C3: the 500 path of the query endpoint -/

/-- Any pattern is a substring of a list that ends with it. -/
theorem listStartsWith_refl (p : List Char) : listStartsWith p p = true := by
  induction p with
  | nil => rfl
  | cons a as ih => simp [listStartsWith, ih]

/-- `hasSub` finds a pattern appended at the end. -/
theorem hasSub_append_self (l p : List Char) : hasSub p (l ++ p) = true := by
  induction l with
  | nil =>
    simp only [List.nil_append]
    cases p with
    | nil => rfl
    | cons c cs =>
      show (listStartsWith (c :: cs) (c :: cs) || hasSub (c :: cs) cs) = true
      rw [listStartsWith_refl]
      rfl
  | cons c t ih =>
    simp only [List.cons_append]
    show (listStartsWith p (c :: (t ++ p)) || hasSub p (t ++ p)) = true
    rw [ih]
    simp

/-- C3 counterexample: when the external processor raises with message
`"neo4j auth failed"`, the endpoint's 500 response carries that message
inside its client-visible detail
(`"Error processing marketing query: neo4j auth failed"`) — the claim
says the body is a generic sanitized message that does not contain the
processor's exception detail. -/
theorem C3_counterexample :
    (query_crew_endpoint (fun _ => Except.error "neo4j auth failed")
        "q").status = 500
    ∧ strHasSub "neo4j auth failed"
        (query_crew_endpoint (fun _ => Except.error "neo4j auth failed")
          "q").detail = true := by
  decide

/-- C3 (amended): whenever the external processor raises, the endpoint
responds 500 with client-visible detail
`"Error processing marketing query: " ++ e`, which *contains* the
processor's exception message `e`; the same full message is logged
server-side.  The generic sanitized body exists only in the global
catch-all handler, which this path never reaches because the endpoint
converts the failure into an `HTTPException` itself. -/
theorem C3_error_detail_leaked (f : String → Except String String)
    (q e : String) (hf : f q = Except.error e) :
    (query_crew_endpoint f q).status = 500
    ∧ (query_crew_endpoint f q).detail
        = "Error processing marketing query: " ++ e
    ∧ strHasSub e (query_crew_endpoint f q).detail = true
    ∧ (query_crew_endpoint f q).logs
        = ["Error processing marketing query: " ++ e]
    ∧ global_exception_handler.detail = "An unexpected error occurred" := by
  unfold query_crew_endpoint
  rw [hf]
  refine ⟨rfl, rfl, ?_, rfl, rfl⟩
  show strHasSub e ("Error processing marketing query: " ++ e) = true
  unfold strHasSub
  rw [String.data_append]
  exact hasSub_append_self _ _

/-- Witness for C3 (amended) at a concrete raised error. -/
theorem C3_error_detail_leaked_witness :
    (query_crew_endpoint (fun _ => Except.error "boom") "q").status = 500
    ∧ strHasSub "boom"
        (query_crew_endpoint (fun _ => Except.error "boom") "q").detail
      = true :=
  ⟨(C3_error_detail_leaked (fun _ => Except.error "boom") "q" "boom" rfl).1,
   (C3_error_detail_leaked (fun _ => Except.error "boom") "q" "boom" rfl).2.2.1⟩

end Gating
